import Mathlib

/-!
Verification of the offline-aware request cache, the cart store, the cart
bootstrap reconciliation and the free-text command interpreter of the
`frontendP2` storefront.  Each definition is a shallow embedding of the
corresponding TypeScript function; browser epoch time (`Date.now()`) is an
explicit `Nat` parameter and the browser local storage is an explicit list of
key/value pairs threaded through the functions.
-/

/-- A JavaScript value as stored in a cache entry.  Only the shape needed by
the cache layer is modelled: `jnull` is the JS `null` literal (significant
because `readCache` uses `null` both as its miss marker and as a possible
stored payload). -/
inductive JVal
  | jnull
  | jnum (n : Int)
  | jstr (s : String)
  deriving Repr, DecidableEq

/-- The string stored under a local-storage key, as seen by `JSON.parse`:
either a string that fails to parse (or parses to a value with a falsy
`timestamp` of `undefined`/`null` shape — both behave identically in every
consumer), or a parsed `StoredValue` record `{ timestamp, data }`.  A falsy
numeric timestamp is represented by `timestamp = 0`. -/
inductive RawStored
  | corrupt
  | entry (timestamp : Nat) (data : JVal)
  deriving Repr, DecidableEq

/-- The browser local storage: ordered key/value pairs (keys are unique in
every store the program can build). -/
abbrev CacheStore := List (String × RawStored)

/-- `localStorage.getItem`: first binding of the key, if any. -/
def getItem : CacheStore → String → Option RawStored
  | [], _ => none
  | (k, v) :: rest, key => if k = key then some v else getItem rest key

/-- `localStorage.setItem`: overwrite the existing binding in place, else
append a new one. -/
def setItem : CacheStore → String → RawStored → CacheStore
  | [], key, v => [(key, v)]
  | (k, w) :: rest, key, v =>
    if k = key then (key, v) :: rest else (k, w) :: setItem rest key v

/-- `localStorage.removeItem`: drop the binding of the key. -/
def removeItemStore (store : CacheStore) (key : String) : CacheStore :=
  store.filter (fun p => ¬ p.1 = key)

/-- `CACHE_PREFIX` from `offlineCache.ts`. -/
def cacheNamespace : String := "electrostore-cache:"

/-- `DEFAULT_TTL_MS = 1000 * 60 * 10` (10 minutes). -/
def DEFAULT_TTL_MS : Nat := 1000 * 60 * 10

/-- `cacheKey` from `offlineCache.ts`. -/
def cacheKey (key : String) : String := cacheNamespace ++ key

/-- `key.startsWith(CACHE_PREFIX)` on the char list. -/
def strStartsWith (s pre : String) : Bool := pre.data.isPrefixOf s.data

/-- The per-entry decision of `clearExpiredCache`: an entry is kept iff it
parses, has a truthy timestamp and `timestamp + DEFAULT_TTL_MS < now` fails. -/
def keepEntry (now : Nat) : RawStored → Bool
  | .corrupt => false
  | .entry t _ => decide (¬ t = 0) && decide (¬ t + DEFAULT_TTL_MS < now)

/-- The `for (let i = 0; i < storage.length; i += 1)` loop of
`clearExpiredCache`.  `storage.key(i)` indexes the live key list, so when the
loop removes the entry at index `i` the successor entry shifts into index `i`
and the `i += 1` step skips it: that successor is kept unexamined (the
`e :: sweepGo now rest2` case below). -/
def sweepGo (now : Nat) : CacheStore → CacheStore
  | [] => []
  | (k, v) :: rest =>
    if strStartsWith k cacheNamespace then
      if keepEntry now v then (k, v) :: sweepGo now rest
      else
        match rest with
        | [] => []
        | e :: rest2 => e :: sweepGo now rest2
    else (k, v) :: sweepGo now rest

/-- `clearExpiredCache` from `offlineCache.ts`. -/
def clearExpiredCache (now : Nat) (store : CacheStore) : CacheStore :=
  sweepGo now store

/-- `readCache` from `offlineCache.ts`: returns the served value (`jnull` is
the miss marker, exactly as `null` is in the source) and the store after the
read's delete-on-corrupt/delete-on-expired side effects. -/
def readCache (store : CacheStore) (key : String) (ttl now : Nat) :
    JVal × CacheStore :=
  match getItem store (cacheKey key) with
  | none => (.jnull, store)
  | some .corrupt => (.jnull, removeItemStore store (cacheKey key))
  | some (.entry t d) =>
    if t = 0 then (.jnull, removeItemStore store (cacheKey key))
    else if ttl < now - t then (.jnull, removeItemStore store (cacheKey key))
    else (d, store)

/-- `writeCache` from `offlineCache.ts` (the quota-exceeded catch branch is
not reachable in the model: the store has no capacity bound). -/
def writeCache (store : CacheStore) (key : String) (data : JVal) (now : Nat) :
    CacheStore :=
  setItem store (cacheKey key) (.entry now data)

deriving instance DecidableEq for Except

/-- Outcome of one `fetchWithCache` call: the returned/thrown result, the
store afterwards, and whether `fetcher` was invoked. -/
structure FetchOutcome where
  result : Except Nat JVal
  store : CacheStore
  fetcherInvoked : Bool
  deriving Repr, DecidableEq

/-- The part of `fetchWithCache` after the offline short-circuit: invoke the
fetcher; on success write through, on failure optionally fall back to the
cache. -/
def fetchStep2 (store : CacheStore) (key : String)
    (fetcherResult : Except Nat JVal) (ttl now : Nat)
    (fallbackOnError : Bool) : FetchOutcome :=
  match fetcherResult with
  | .ok data => ⟨.ok data, writeCache store key data now, true⟩
  | .error e =>
    if fallbackOnError then
      let r := readCache store key ttl now
      if r.1 ≠ .jnull then ⟨.ok r.1, r.2, true⟩ else ⟨.error e, r.2, true⟩
    else ⟨.error e, store, true⟩

/-- `fetchWithCache` from `offlineCache.ts`.  `online` is `navigator.onLine`,
`fetcherResult` the value the producer would return (or the error it would
throw), `now` the clock at the call. -/
def fetchWithCache (online : Bool) (store : CacheStore) (key : String)
    (fetcherResult : Except Nat JVal) (ttl now : Nat)
    (fallbackOnError : Bool) : FetchOutcome :=
  if online then fetchStep2 store key fetcherResult ttl now fallbackOnError
  else
    let r := readCache store key ttl now
    if r.1 ≠ .jnull then ⟨.ok r.1, r.2, false⟩
    else fetchStep2 r.2 key fetcherResult ttl now fallbackOnError

/-- The fields of `Product` the cart and interpreter read: `id` (the cart's
identity key) and `nombre` (the interpreter's search key). -/
structure Product where
  id : Nat
  nombre : String
  deriving Repr, DecidableEq

/-- `CartItem` from `cartStore`: a product snapshot plus a quantity. -/
structure CartItem where
  product : Product
  quantity : Int
  deriving Repr, DecidableEq

/-- `addItem` from `cartStore`: bump the quantity of an existing line for the
same product id, else append a new line with quantity 1. -/
def addItem (items : List CartItem) (product : Product) : List CartItem :=
  match items.find? (fun item => item.product.id == product.id) with
  | some _ =>
    items.map (fun item =>
      if item.product.id = product.id then
        { item with quantity := item.quantity + 1 }
      else item)
  | none => items ++ [{ product := product, quantity := 1 }]

/-- `removeItem` from `cartStore`: drop every line with the product id. -/
def removeItem (items : List CartItem) (productId : Nat) : List CartItem :=
  items.filter (fun item => ¬ item.product.id = productId)

/-- `updateQuantity` from `cartStore`: clamp the requested quantity to at
least 1 (`Math.max(1, quantity)`) on every line with the product id. -/
def updateQuantity (items : List CartItem) (productId : Nat) (quantity : Int) :
    List CartItem :=
  items.map (fun item =>
    if item.product.id = productId then { item with quantity := max 1 quantity }
    else item)

/-- A line of `CartResponse.detalles`. -/
structure Detail where
  producto : Product
  cantidad : Int
  deriving Repr, DecidableEq

/-- The server cart representation; `detalles` is optional exactly as the
source guards it with `?.`/`??`. -/
structure CartResponse where
  detalles : Option (List Detail)
  deriving Repr, DecidableEq

/-- One item of the payload `bootstrap` pushes to `syncCart`. -/
structure SyncItem where
  productId : Nat
  quantity : Int
  deriving Repr, DecidableEq

/-- The payload `bootstrap` pushes to `syncCart`. -/
structure SyncPayload where
  items : List SyncItem
  deriving Repr, DecidableEq

/-- `mapCartResponseToItems` from `cartStore`. -/
def mapCartResponseToItems (cart : CartResponse) : List CartItem :=
  (cart.detalles.getD []).map (fun d =>
    { product := d.producto, quantity := d.cantidad })

/-- `hydrateFromServer` from `cartStore`: the local items after adopting a
server cart wholesale. -/
def hydrateFromServer (cart : CartResponse) : List CartItem :=
  mapCartResponseToItems cart

/-- The payload built from the local items in `bootstrap`. -/
def toSyncPayload (items : List CartItem) : SyncPayload :=
  ⟨items.map (fun item =>
    { productId := item.product.id, quantity := item.quantity })⟩

/-- Result of one bootstrap run: the local cart afterwards and the payload
pushed to the server, if any. -/
structure BootstrapResult where
  items : List CartItem
  pushed : Option SyncPayload
  deriving Repr, DecidableEq

/-- `bootstrap` from `useCartSync.ts` (the non-cancelled, non-throwing path):
`serverCart` is what `fetchCurrentCart` resolved to, `localItems` the cart
store's items at that moment, and `syncResp` the server's response to a
`syncCart` push. -/
def bootstrap (serverCart : CartResponse) (localItems : List CartItem)
    (syncResp : SyncPayload → CartResponse) : BootstrapResult :=
  if (serverCart.detalles.getD []).length ≠ 0 then
    ⟨hydrateFromServer serverCart, none⟩
  else if localItems.length ≠ 0 then
    let payload := toSyncPayload localItems
    ⟨hydrateFromServer (syncResp payload), some payload⟩
  else
    ⟨hydrateFromServer serverCart, none⟩

/-- JS `toLowerCase` on the characters this program can see: ASCII letters
plus the precomposed Spanish accented letters. -/
def toLowerJS (c : Char) : Char :=
  match c with
  | 'Á' => 'á'
  | 'É' => 'é'
  | 'Í' => 'í'
  | 'Ó' => 'ó'
  | 'Ú' => 'ú'
  | 'Ü' => 'ü'
  | 'Ñ' => 'ñ'
  | _ => c.toLower

/-- `value.toLowerCase()`. -/
def lowerJS (s : String) : String := String.mk (s.data.map toLowerJS)

/-- The `normalize("NFD").replace(/[̀-ͯ]/g, "")` step of
`normalizeText`, modelled character-wise on the precomposed Latin letters a
Spanish catalog uses: each accented letter decomposes into its base letter
plus a combining mark in U+0300–U+036F, and the mark is then stripped. -/
def foldDiacritic (c : Char) : Char :=
  match c with
  | 'á' => 'a'
  | 'é' => 'e'
  | 'í' => 'i'
  | 'ó' => 'o'
  | 'ú' => 'u'
  | 'ü' => 'u'
  | 'ñ' => 'n'
  | 'Á' => 'A'
  | 'É' => 'E'
  | 'Í' => 'I'
  | 'Ó' => 'O'
  | 'Ú' => 'U'
  | 'Ü' => 'U'
  | 'Ñ' => 'N'
  | _ => c

/-- A regex `\w` character: ASCII letter, digit or underscore. -/
def jsWordChar (c : Char) : Bool := c.isAlpha || c.isDigit || c = '_'

/-- Maximal runs of characters satisfying `keep`; the separators between the
runs are discarded.  `acc` carries the current run reversed. -/
def splitRunsAux (keep : Char → Bool) : List Char → List Char → List String
  | [], acc => if acc.isEmpty then [] else [String.mk acc.reverse]
  | c :: cs, acc =>
    if keep c then splitRunsAux keep cs (c :: acc)
    else if acc.isEmpty then splitRunsAux keep cs []
    else String.mk acc.reverse :: splitRunsAux keep cs []

/-- Maximal runs of characters satisfying `keep`. -/
def splitRuns (keep : Char → Bool) (l : List Char) : List String :=
  splitRunsAux keep l []

/-- `normalizeText` from `Cart.tsx`: strip diacritics, turn everything that
is neither `\w` nor whitespace into a separator, collapse separator runs,
trim, lowercase.  The output is the normalized words joined by single
spaces. -/
def normalizeText (value : String) : String :=
  String.intercalate " "
    (splitRuns jsWordChar (value.data.map (fun c => toLowerJS (foldDiacritic c))))

/-- `needle` occurs as a contiguous run inside `haystack`. -/
def listIsInfix (needle : List Char) : List Char → Bool
  | [] => needle.isEmpty
  | c :: cs => needle.isPrefixOf (c :: cs) || listIsInfix needle cs

/-- `haystack.includes(needle)`. -/
def containsSub (haystack needle : String) : Bool :=
  listIsInfix needle.data haystack.data

/-- One step of `value.replace(/pat/gi, "")`: scan left to right, drop each
non-overlapping case-insensitive occurrence of `pat`.  `fuel` is the length
of the scanned list, which bounds the number of steps. -/
def removeAllCIAux (pat : List Char) : Nat → List Char → List Char
  | _, [] => []
  | 0, l => l
  | fuel + 1, c :: cs =>
    if pat.isPrefixOf ((c :: cs).map toLowerJS) then
      removeAllCIAux pat fuel (cs.drop (pat.length - 1))
    else c :: removeAllCIAux pat fuel cs

/-- `value.replace(/pat/gi, "")` for a lowercase literal pattern. -/
def removeAllCI (pat : String) (s : String) : String :=
  String.mk (removeAllCIAux pat.data s.data.length s.data)

/-- JS `String.prototype.trim()`. -/
def jsTrim (s : String) : String :=
  String.mk
    (((s.data.dropWhile Char.isWhitespace).reverse.dropWhile
        Char.isWhitespace).reverse)

/-- `stripAction` of the add intent in `interpretCommand`:
`.replace(/agregar/gi, "").replace(/añadir/gi, "").replace(/anadir/gi, "").trim()`. -/
def stripActionAdd (instruction : String) : String :=
  jsTrim (removeAllCI "anadir" (removeAllCI "añadir" (removeAllCI "agregar" instruction)))

/-- The remove intent's stripping:
`.replace(/quitar/gi, "").replace(/eliminar/gi, "").trim()`. -/
def stripActionRemove (instruction : String) : String :=
  jsTrim (removeAllCI "eliminar" (removeAllCI "quitar" instruction))

/-- `Number` of a nonempty decimal digit string. -/
def digitsToNat (digits : List Char) : Nat :=
  digits.foldl (fun acc c => acc * 10 + (c.toNat - '0'.toNat)) 0

/-- `baseText.match(/(\d+)\s*$/)` together with
`baseText.slice(0, match.index).trim()`: the trailing digit run (ignoring
trailing whitespace) and the trimmed text in front of it. -/
def trailingDigits (baseText : String) : Option (String × String) :=
  let strippedRev := baseText.data.reverse.dropWhile Char.isWhitespace
  let digitsRev := strippedRev.takeWhile Char.isDigit
  if digitsRev.isEmpty then none
  else
    some (String.mk digitsRev.reverse,
      jsTrim (String.mk (strippedRev.dropWhile Char.isDigit).reverse))

/-- One search attempt of the add intent: the text to look up and the
quantity to use if it matches. -/
structure Attempt where
  text : String
  quantity : Int
  deriving Repr, DecidableEq

/-- The `attempts` array built by the add intent of `interpretCommand`: with
a trailing number, first try the text without the number (quantity = the
number, clamped to ≥ 1) and fall back to the full text with quantity 1 —
unless stripping the number left nothing, in which case the single attempt is
the full text with the parsed quantity. -/
def computeAttempts (baseText : String) : List Attempt :=
  match trailingDigits baseText with
  | none => [⟨baseText, 1⟩]
  | some (digits, withoutNumber) =>
    let quantityValue : Int := max 1 (digitsToNat digits.data : Int)
    if withoutNumber = "" then [⟨baseText, quantityValue⟩]
    else [⟨withoutNumber, quantityValue⟩, ⟨baseText, 1⟩]

/-- The `searchIndex` memo of `Cart.tsx`: every catalog product paired with
its normalized name. -/
def searchIndexOf (catalog : List Product) : List (Product × String) :=
  catalog.map (fun p => (p, normalizeText p.nombre))

/-- `findProducts` from `Cart.tsx`: the last product whose normalized name
equals the normalized query (if any), and, in catalog order, every product
whose normalized name contains all query words as substrings. -/
def findProducts (searchIndex : List (Product × String)) (query : String) :
    Option Product × List Product :=
  let nq := normalizeText query
  if nq = "" then (none, [])
  else
    let words := splitRuns (fun c => ¬ c = ' ') nq.data
    searchIndex.foldl
      (fun acc pn =>
        let acc1 := if pn.2 = nq then (some pn.1, acc.2) else acc
        if words.all (fun w => listIsInfix w.data pn.2.data) then
          if pn.1 ∈ acc1.2 then acc1 else (acc1.1, acc1.2 ++ [pn.1])
        else acc1)
      (none, [])

/-- The resolved search of the add intent: the exact hit, the candidate list,
the quantity of the attempt that matched and its search label. -/
structure Resolution where
  exactMatch : Option Product
  matchList : List Product
  quantity : Int
  label : String
  deriving Repr, DecidableEq

/-- The `for (const attempt of attempts)` loop of the add intent: the first
attempt whose `findProducts` candidate list is nonempty wins. -/
def resolveAttempts (searchIndex : List (Product × String)) :
    List Attempt → Option Resolution
  | [] => none
  | a :: rest =>
    let r := findProducts searchIndex a.text
    if r.2 ≠ [] then some ⟨r.1, r.2, a.quantity, a.text⟩
    else resolveAttempts searchIndex rest

/-- `suggestionMode` of `Cart.tsx`. -/
inductive SuggestionMode
  | add
  | remove
  deriving Repr, DecidableEq

/-- The user-facing messages `interpretCommand` can set, abstracted from
their Spanish wording to their decision content. -/
inductive Feedback
  | catalogLoading
  | needAddName
  | notFoundAdd
  | ambiguousAdd (count : Nat) (label : String)
  | added (name : String) (quantity : Int) (fromVoice : Bool)
  | needRemoveName
  | notFoundRemove
  | ambiguousRemove (count : Nat) (label : String)
  | removed (name : String)
  | cleared
  | paying
  | unrecognized
  deriving Repr, DecidableEq

/-- The pieces of `Cart.tsx` component state `interpretCommand` and its
helpers read and write. -/
structure UIState where
  items : List CartItem
  feedback : Option Feedback
  suggestions : List Product
  suggestionMode : Option SuggestionMode
  pendingQuantity : Int
  checkoutRequested : Bool
  deriving Repr, DecidableEq

/-- `applyAddToCart` from `Cart.tsx`: raise the quantity of an existing line
by `quantity`, or insert a new line and set its quantity. -/
def applyAddToCart (product : Product) (quantity : Int) (fromVoice : Bool)
    (st : UIState) : UIState :=
  let updatedItems :=
    match st.items.find? (fun i => i.product.id == product.id) with
    | some existing =>
      updateQuantity st.items product.id (existing.quantity + quantity)
    | none =>
      let afterAdd := addItem st.items product
      if 1 < quantity then updateQuantity afterAdd product.id quantity
      else afterAdd
  { st with
    items := updatedItems,
    feedback := some (.added product.nombre quantity fromVoice),
    suggestions := [],
    suggestionMode := none,
    pendingQuantity := 1 }

/-- The add-intent branch of `interpretCommand` (entered when the lowercased
instruction contains an add keyword). -/
def addIntent (instruction : String) (fromVoice : Bool)
    (searchIndex : List (Product × String)) (st0 : UIState) : UIState :=
  let baseText := stripActionAdd instruction
  if baseText = "" then { st0 with feedback := some .needAddName }
  else
    match resolveAttempts searchIndex (computeAttempts baseText) with
    | none => { st0 with feedback := some .notFoundAdd }
    | some r =>
      let selected :=
        match r.exactMatch with
        | some p => some p
        | none => if r.matchList.length = 1 then r.matchList.head? else none
      match selected with
      | none =>
        { st0 with
          pendingQuantity := r.quantity,
          suggestionMode := some .add,
          suggestions := r.matchList,
          feedback := some (.ambiguousAdd r.matchList.length r.label) }
      | some p => applyAddToCart p r.quantity fromVoice st0

/-- The remove-intent branch of `interpretCommand`. -/
def removeIntent (instruction : String)
    (searchIndex : List (Product × String)) (st0 : UIState) : UIState :=
  let productNameRaw := stripActionRemove instruction
  if productNameRaw = "" then { st0 with feedback := some .needRemoveName }
  else
    let r := findProducts searchIndex productNameRaw
    if r.2 = [] then { st0 with feedback := some .notFoundRemove }
    else
      let selected :=
        match r.1 with
        | some p => some p
        | none => if r.2.length = 1 then r.2.head? else none
      match selected with
      | none =>
        { st0 with
          suggestionMode := some .remove,
          suggestions := r.2,
          feedback := some (.ambiguousRemove r.2.length productNameRaw) }
      | some p =>
        { st0 with
          items := removeItem st0.items p.id,
          feedback := some (.removed p.nombre),
          pendingQuantity := 1 }

/-- `lower.includes("agregar") || lower.includes("añadir") || lower.includes("anadir")`. -/
def isAddCommand (instruction : String) : Bool :=
  containsSub (lowerJS instruction) "agregar"
    || containsSub (lowerJS instruction) "añadir"
    || containsSub (lowerJS instruction) "anadir"

/-- `lower.includes("quitar") || lower.includes("eliminar")`. -/
def isRemoveCommand (instruction : String) : Bool :=
  containsSub (lowerJS instruction) "quitar"
    || containsSub (lowerJS instruction) "eliminar"

/-- `lower.includes("vaciar") || lower.includes("limpiar")`. -/
def isClearCommand (instruction : String) : Bool :=
  containsSub (lowerJS instruction) "vaciar"
    || containsSub (lowerJS instruction) "limpiar"

/-- `lower.includes("pagar") || lower.includes("comprar")`. -/
def isCheckoutCommand (instruction : String) : Bool :=
  containsSub (lowerJS instruction) "pagar"
    || containsSub (lowerJS instruction) "comprar"

/-- `interpretCommand` from `Cart.tsx` as a pure state transformer on the
component state. -/
def interpretCommand (instruction : String) (fromVoice : Bool)
    (catalog : List Product) (st : UIState) : UIState :=
  if jsTrim instruction = "" then st
  else if catalog = [] then { st with feedback := some .catalogLoading }
  else
    let st0 := { st with suggestions := [], suggestionMode := none }
    if isAddCommand instruction then
      addIntent instruction fromVoice (searchIndexOf catalog) st0
    else if isRemoveCommand instruction then
      removeIntent instruction (searchIndexOf catalog) st0
    else if isClearCommand instruction then
      { st0 with items := [], feedback := some .cleared, pendingQuantity := 1 }
    else if isCheckoutCommand instruction then
      { st0 with
        checkoutRequested := true,
        feedback := some .paying,
        pendingQuantity := 1 }
    else { st0 with feedback := some .unrecognized }

/-- The cart invariant: at most one `CartItem` per distinct product id. -/
def uniqueIds (items : List CartItem) : Prop :=
  items.Pairwise (fun a b => a.product.id ≠ b.product.id)

/-- Concrete catalog products and an initial component state used to
exercise the interpreter on the inputs of the spec's examples. -/
def laptopPro : Product := ⟨1, "Laptop Pro"⟩

def laptopAir : Product := ⟨2, "Laptop Air"⟩

def cable123 : Product := ⟨9, "Cable 123"⟩

def emptyUI : UIState := ⟨[], none, [], none, 1, false⟩

theorem getItem_setItem_self (store : CacheStore) (key : String)
    (v : RawStored) : getItem (setItem store key v) key = some v := by
  induction store with
  | nil => simp [setItem, getItem]
  | cons hd tl ih =>
    obtain ⟨k, w⟩ := hd
    by_cases hk : k = key
    · simp [setItem, hk, getItem]
    · simp [setItem, hk, getItem, ih]

theorem getItem_removeItemStore_self (store : CacheStore) (key : String) :
    getItem (removeItemStore store key) key = none := by
  induction store with
  | nil => simp [removeItemStore, getItem]
  | cons hd tl ih =>
    obtain ⟨k, w⟩ := hd
    by_cases hk : k = key
    · simpa [removeItemStore, hk] using ih
    · simpa [removeItemStore, hk, getItem] using ih

theorem readCache_of_getItem (store : CacheStore) (k : String) (T : Nat)
    (d : JVal) (t now : Nat)
    (hget : getItem store (cacheKey k) = some (.entry T d)) (hT : 0 < T)
    (hvalid : now - T ≤ t) : readCache store k t now = (d, store) := by
  simp only [readCache, hget]
  rw [if_neg (by omega), if_neg (by omega)]

theorem readCache_writeCache_valid (store : CacheStore) (k : String)
    (d : JVal) (T t now : Nat) (hT : 0 < T) (hvalid : now - T ≤ t) :
    readCache (writeCache store k d T) k t now = (d, writeCache store k d T) :=
  readCache_of_getItem _ k T d t now (getItem_setItem_self store _ _) hT hvalid

/-- C1: for every login bootstrap, a server cart with at least one line item
overwrites the local cart wholesale; an empty server cart with a nonempty
local cart pushes the local items and adopts the server's accepted response;
two empty carts adopt the empty server cart as-is. -/
theorem c1_bootstrap_reconciliation (serverCart : CartResponse)
    (localItems : List CartItem) (syncResp : SyncPayload → CartResponse) :
    (serverCart.detalles.getD [] ≠ [] →
      bootstrap serverCart localItems syncResp =
        ⟨hydrateFromServer serverCart, none⟩) ∧
    (serverCart.detalles.getD [] = [] → localItems ≠ [] →
      bootstrap serverCart localItems syncResp =
        ⟨hydrateFromServer (syncResp (toSyncPayload localItems)),
          some (toSyncPayload localItems)⟩) ∧
    (serverCart.detalles.getD [] = [] → localItems = [] →
      bootstrap serverCart localItems syncResp =
        ⟨hydrateFromServer serverCart, none⟩ ∧
        hydrateFromServer serverCart = []) := by
  refine ⟨fun h => ?_, fun h h2 => ?_, fun h h2 => ?_⟩
  · unfold bootstrap
    rw [if_pos (fun hl => h (List.length_eq_zero.mp hl))]
  · unfold bootstrap
    rw [if_neg (fun hl => hl (by simp [h])),
      if_pos (fun hl => h2 (List.length_eq_zero.mp hl))]
  · subst h2
    unfold bootstrap
    rw [if_neg (fun hl => hl (by simp [h]))]
    simp [hydrateFromServer, mapCartResponseToItems, h]

theorem c1_witness :
    bootstrap ⟨some [⟨⟨1, "Laptop Pro"⟩, 2⟩]⟩ [⟨⟨2, "Laptop Air"⟩, 1⟩]
        (fun _ => ⟨none⟩) =
      ⟨[⟨⟨1, "Laptop Pro"⟩, 2⟩], none⟩ ∧
    bootstrap ⟨some []⟩ [⟨⟨2, "Laptop Air"⟩, 1⟩]
        (fun p => ⟨some (p.items.map (fun i =>
          ⟨⟨i.productId, "Laptop Air"⟩, i.quantity⟩))⟩) =
      ⟨[⟨⟨2, "Laptop Air"⟩, 1⟩], some ⟨[⟨2, 1⟩]⟩⟩ ∧
    bootstrap ⟨none⟩ [] (fun _ => ⟨none⟩) = ⟨[], none⟩ := by
  refine ⟨?_, ?_, ?_⟩
  · exact ((c1_bootstrap_reconciliation _ _ _).1 (by decide)).trans (by decide)
  · exact ((c1_bootstrap_reconciliation _ _ _).2.1 (by decide)
      (by decide)).trans (by decide)
  · exact ((c1_bootstrap_reconciliation _ _ _).2.2 (by decide) (by decide)).1

/-- C2: the claim says the sweep leaves no unparsable/timestampless/expired
entry under the prefix, but the source's forward index loop removes entries
from the live key list while iterating, so the entry that shifts into the
removed entry's index is skipped: with two adjacent expired entries the
second one survives the sweep. -/
theorem c2_sweep_skips_expired_entry :
    clearExpiredCache 1000000
        [("electrostore-cache:a", .entry 1 (.jnum 1)),
          ("electrostore-cache:b", .entry 1 (.jnum 2))] =
      [("electrostore-cache:b", .entry 1 (.jnum 2))] ∧
    strStartsWith "electrostore-cache:b" cacheNamespace = true ∧
    keepEntry 1000000 (.entry 1 (.jnum 2)) = false := by decide

/-- C3 counterexample: a value stored at clock time `T = 0` gets the falsy
timestamp `0`, so a read at `now = 0` (hence `now - T = 0 ≤ ttl`) is a miss
instead of returning the value. -/
theorem c3_zero_time_counterexample :
    (0 : Nat) - 0 ≤ 600000 ∧
    (readCache (writeCache [] "historial" (.jnum 9) 0) "historial" 600000
        0).1 = .jnull := by decide

/-- C3 (amended with `0 < T`): a value stored at time `T` is returned
unchanged (store untouched) whenever `now - T ≤ t`, and is a miss with the
entry deleted whenever `now - T > t`. -/
theorem c3_ttl_boundary (store : CacheStore) (k : String) (d : JVal)
    (T t now : Nat) (hT : 0 < T) :
    (now - T ≤ t →
      readCache (writeCache store k d T) k t now =
        (d, writeCache store k d T)) ∧
    (t < now - T →
      (readCache (writeCache store k d T) k t now).1 = .jnull ∧
      getItem (readCache (writeCache store k d T) k t now).2 (cacheKey k) =
        none) := by
  constructor
  · exact fun hvalid => readCache_writeCache_valid store k d T t now hT hvalid
  · intro hexp
    have hget : getItem (writeCache store k d T) (cacheKey k) =
        some (.entry T d) := getItem_setItem_self store _ _
    simp only [readCache, hget]
    rw [if_neg (by omega), if_pos hexp]
    exact ⟨rfl, getItem_removeItemStore_self _ _⟩

theorem c3_witness :
    readCache (writeCache [] "ventas" (.jnum 2) 5) "ventas" 10 15 =
      (.jnum 2, writeCache [] "ventas" (.jnum 2) 5) ∧
    (readCache (writeCache [] "ventas" (.jnum 2) 5) "ventas" 10 16).1 =
      .jnull :=
  ⟨(c3_ttl_boundary [] "ventas" (.jnum 2) 5 10 15 (by decide)).1 (by decide),
    ((c3_ttl_boundary [] "ventas" (.jnum 2) 5 10 16 (by decide)).2
      (by decide)).1⟩

/-- C4 counterexample: offline, with a ttl-valid cached entry for the key
whose payload is the JS `null`, `fetchWithCache` invokes the fetcher anyway
(the `cached !== null` guard reads the stored `null` as a miss). -/
theorem c4_null_payload_counterexample :
    getItem [("electrostore-cache:catalogo", .entry 5 .jnull)]
        (cacheKey "catalogo") = some (.entry 5 .jnull) ∧
    (5 : Nat) - 5 ≤ 10 ∧
    (fetchWithCache false [("electrostore-cache:catalogo", .entry 5 .jnull)]
        "catalogo" (.ok (.jnum 7)) 10 5 true).fetcherInvoked = true := by
  decide

/-- C4 (amended: the valid cached entry must carry a non-null payload, and a
nonzero stored timestamp): offline, `fetchWithCache` returns the cached value
and never invokes the fetcher. -/
theorem c4_offline_fallback (store : CacheStore) (k : String)
    (fres : Except Nat JVal) (ttl now T : Nat) (d : JVal) (fb : Bool)
    (hget : getItem store (cacheKey k) = some (.entry T d)) (hT : 0 < T)
    (hvalid : now - T ≤ ttl) (hd : d ≠ .jnull) :
    fetchWithCache false store k fres ttl now fb = ⟨.ok d, store, false⟩ := by
  have hread : readCache store k ttl now = (d, store) :=
    readCache_of_getItem store k T d ttl now hget hT hvalid
  simp [fetchWithCache, hread, hd]

theorem c4_witness :
    fetchWithCache false [("electrostore-cache:roles", .entry 3 (.jnum 8))]
        "roles" (.error 1) 10 4 true =
      ⟨.ok (.jnum 8), [("electrostore-cache:roles", .entry 3 (.jnum 8))],
        false⟩ :=
  c4_offline_fallback _ "roles" _ 10 4 3 (.jnum 8) true (by decide)
    (by decide) (by decide) (by decide)

/-- C5 counterexample: a first `fetchWithCache` call whose producer resolves
to the JS `null` writes `null` through to the cache, but a second call within
the ttl whose producer throws propagates the error (with `fallbackOnError`
true) instead of returning the previously fetched value. -/
theorem c5_null_fallback_counterexample :
    (fetchWithCache true [] "productos" (.ok .jnull) 600000 1000 true).store =
      [("electrostore-cache:productos", .entry 1000 .jnull)] ∧
    (fetchWithCache true
        (fetchWithCache true [] "productos" (.ok .jnull) 600000 1000
          true).store
        "productos" (.error 7) 600000 1000 true).result = .error 7 := by
  decide

/-- C5 (amended: the previously fetched value must be non-null, and the write
time nonzero): a successful fetch is persisted under the key with the current
timestamp; a subsequent call whose producer throws returns it within the ttl
when `fallbackOnError` is true; with `fallbackOnError` false, or with no
usable cached value, the producer's failure is propagated. -/
theorem c5_write_through_and_fallback (store : CacheStore) (k : String)
    (d : JVal) (ttl t1 t2 e : Nat) (fb : Bool) :
    (getItem (fetchWithCache true store k (.ok d) ttl t1 fb).store
        (cacheKey k) = some (.entry t1 d)) ∧
    (d ≠ .jnull → 0 < t1 → t2 - t1 ≤ ttl →
      fetchWithCache true (fetchWithCache true store k (.ok d) ttl t1 fb).store
          k (.error e) ttl t2 true =
        ⟨.ok d, (fetchWithCache true store k (.ok d) ttl t1 fb).store,
          true⟩) ∧
    (fetchWithCache true store k (.error e) ttl t2 false =
      ⟨.error e, store, true⟩) ∧
    ((readCache store k ttl t2).1 = .jnull →
      fetchWithCache true store k (.error e) ttl t2 true =
        ⟨.error e, (readCache store k ttl t2).2, true⟩) := by
  have hstore : (fetchWithCache true store k (.ok d) ttl t1 fb).store =
      writeCache store k d t1 := by
    simp [fetchWithCache, fetchStep2]
  refine ⟨?_, fun hd ht1 hvalid => ?_, ?_, fun hmiss => ?_⟩
  · rw [hstore]
    exact getItem_setItem_self store _ _
  · rw [hstore]
    have hread : readCache (writeCache store k d t1) k ttl t2 =
        (d, writeCache store k d t1) :=
      readCache_writeCache_valid store k d t1 ttl t2 ht1 hvalid
    simp [fetchWithCache, fetchStep2, hread, hd]
  · simp [fetchWithCache, fetchStep2]
  · simp [fetchWithCache, fetchStep2, hmiss]

theorem c5_witness :
    fetchWithCache true
        (fetchWithCache true [] "categorias" (.ok (.jnum 4)) 10 2 true).store
        "categorias" (.error 9) 10 5 true =
      ⟨.ok (.jnum 4),
        (fetchWithCache true [] "categorias" (.ok (.jnum 4)) 10 2 true).store,
        true⟩ ∧
    fetchWithCache true [] "categorias" (.error 9) 10 5 true =
      ⟨.error 9, (readCache [] "categorias" 10 5).2, true⟩ :=
  ⟨(c5_write_through_and_fallback [] "categorias" (.jnum 4) 10 2 5 9
        true).2.1 (by decide) (by decide) (by decide),
    (c5_write_through_and_fallback [] "categorias" (.jnum 4) 10 2 5 9
        true).2.2.2 (by decide)⟩

/-- C10: a fetcher result equal to `null` is written through to the cache,
yet a cache read of it always yields `null` — the same value the read uses
for a missing entry — so a later offline call still invokes the fetcher and
a later failing call propagates its error instead of serving the cached
`null`. -/
theorem c10_null_never_served (store : CacheStore) (k : String)
    (ttl t1 now2 e : Nat) (fres : Except Nat JVal) (fb : Bool) :
    (getItem (fetchWithCache true store k (.ok .jnull) ttl t1 fb).store
        (cacheKey k) = some (.entry t1 .jnull)) ∧
    ((readCache (fetchWithCache true store k (.ok .jnull) ttl t1 fb).store
        k ttl now2).1 = .jnull) ∧
    ((fetchWithCache false
        (fetchWithCache true store k (.ok .jnull) ttl t1 fb).store
        k fres ttl now2 fb).fetcherInvoked = true) ∧
    ((fetchWithCache true
        (fetchWithCache true store k (.ok .jnull) ttl t1 fb).store
        k (.error e) ttl now2 true).result = .error e) := by
  have hstore : (fetchWithCache true store k (.ok .jnull) ttl t1 fb).store =
      writeCache store k .jnull t1 := by
    simp [fetchWithCache, fetchStep2]
  have hget : getItem (writeCache store k .jnull t1) (cacheKey k) =
      some (.entry t1 .jnull) := getItem_setItem_self store _ _
  have hread : (readCache (writeCache store k .jnull t1) k ttl now2).1 =
      .jnull := by
    simp only [readCache, hget]
    split_ifs <;> rfl
  have hinvoked : ∀ st fr,
      (fetchStep2 st k fr ttl now2 fb).fetcherInvoked = true := by
    intro st fr
    cases fr
    · simp only [fetchStep2]
      split_ifs <;> rfl
    · simp [fetchStep2]
  rw [hstore]
  refine ⟨hget, hread, ?_, ?_⟩
  · simp only [fetchWithCache, hread]
    simp [hinvoked]
  · simp [fetchWithCache, fetchStep2, hread]

theorem find?_append_of_none {α : Type} (p : α → Bool) (l1 l2 : List α)
    (h : l1.find? p = none) : (l1 ++ l2).find? p = l2.find? p := by
  rw [List.find?_append, h, Option.none_or]

/-- C6 counterexample: with the product already in the cart (quantity 1),
two successive `addItem` calls leave a single line of quantity 3, not 2. -/
theorem c6_repeated_add_counterexample :
    addItem (addItem [⟨⟨7, "Mouse"⟩, 1⟩] ⟨7, "Mouse"⟩) ⟨7, "Mouse"⟩ =
      [⟨⟨7, "Mouse"⟩, 3⟩] := by decide

/-- C6 (amended: the quantity-2 outcome holds for carts that do not already
contain the product's id): `addItem` preserves the at-most-one-line-per-id
invariant, and adding a fresh product twice yields exactly one line for its
id, with quantity 2. -/
theorem c6_add_idempotent_unique (items : List CartItem) (p : Product) :
    (uniqueIds items → uniqueIds (addItem items p)) ∧
    ((∀ it ∈ items, it.product.id ≠ p.id) →
      addItem (addItem items p) p = items ++ [⟨p, 2⟩] ∧
      (addItem (addItem items p) p).filter
          (fun it => it.product.id == p.id) = [⟨p, 2⟩]) := by
  constructor
  · intro hu
    unfold addItem
    cases hfind : items.find? (fun item => item.product.id == p.id) with
    | some it =>
      show uniqueIds (items.map (fun item =>
        if item.product.id = p.id then
          { item with quantity := item.quantity + 1 }
        else item))
      refine List.Pairwise.map _ ?_ hu
      intro a b hab
      have hfa : ∀ c : CartItem,
          ((if c.product.id = p.id then
            { c with quantity := c.quantity + 1 } else c) : CartItem).product =
            c.product := by
        intro c
        split <;> rfl
      simpa [hfa] using hab
    | none =>
      show uniqueIds (items ++ [⟨p, 1⟩])
      unfold uniqueIds
      rw [List.pairwise_append]
      refine ⟨hu, List.pairwise_singleton _ _, ?_⟩
      intro a ha b hb
      have hne := List.find?_eq_none.mp hfind a ha
      simp only [List.mem_singleton] at hb
      subst hb
      simpa using hne
  · intro hfresh
    have hfind : items.find? (fun item => item.product.id == p.id) = none :=
      List.find?_eq_none.mpr (fun a ha => by simpa using hfresh a ha)
    have h1 : addItem items p = items ++ [⟨p, 1⟩] := by
      unfold addItem
      rw [hfind]
    have hfind2 : (items ++ [(⟨p, 1⟩ : CartItem)]).find?
        (fun item => item.product.id == p.id) = some ⟨p, 1⟩ := by
      rw [find?_append_of_none _ _ _ hfind]
      simp [List.find?_cons]
    have h2 : addItem (addItem items p) p = items ++ [⟨p, 2⟩] := by
      rw [h1]
      unfold addItem
      rw [hfind2]
      rw [List.map_append]
      have hmap : items.map (fun item =>
          if item.product.id = p.id then
            { item with quantity := item.quantity + 1 }
          else item) = items := by
        conv_rhs => rw [← List.map_id items]
        exact List.map_congr_left (fun a ha => by simp [hfresh a ha])
      rw [hmap]
      norm_num
    refine ⟨h2, ?_⟩
    rw [h2, List.filter_append]
    have hfil : items.filter (fun it => it.product.id == p.id) = [] :=
      List.filter_eq_nil_iff.mpr (fun a ha => by simpa using hfresh a ha)
    rw [hfil]
    simp

theorem c6_witness :
    uniqueIds (addItem [⟨⟨1, "Tv"⟩, 1⟩] ⟨2, "Mouse"⟩) ∧
    addItem (addItem [⟨⟨1, "Tv"⟩, 1⟩] ⟨2, "Mouse"⟩) ⟨2, "Mouse"⟩ =
      [⟨⟨1, "Tv"⟩, 1⟩, ⟨⟨2, "Mouse"⟩, 2⟩] :=
  ⟨(c6_add_idempotent_unique [⟨⟨1, "Tv"⟩, 1⟩] ⟨2, "Mouse"⟩).1
      (by simp [uniqueIds]),
    ((c6_add_idempotent_unique [⟨⟨1, "Tv"⟩, 1⟩] ⟨2, "Mouse"⟩).2
      (by decide)).1⟩

/-- C9: `updateQuantity` rewrites every line carrying the product id to the
clamped quantity `max 1 q` (so any `q < 1` becomes 1) and leaves every other
line untouched, preserving length and order. -/
theorem c9_quantity_floor (items : List CartItem) (productId : Nat) (q : Int)
    (_hmem : ∃ it ∈ items, it.product.id = productId) :
    (updateQuantity items productId q).length = items.length ∧
    (∀ i (hi : i < items.length)
        (hi2 : i < (updateQuantity items productId q).length),
      (((items.get ⟨i, hi⟩).product.id = productId →
        ((updateQuantity items productId q).get ⟨i, hi2⟩).product =
          (items.get ⟨i, hi⟩).product ∧
        ((updateQuantity items productId q).get ⟨i, hi2⟩).quantity =
          max 1 q) ∧
      ((items.get ⟨i, hi⟩).product.id ≠ productId →
        (updateQuantity items productId q).get ⟨i, hi2⟩ =
          items.get ⟨i, hi⟩))) ∧
    (q < 1 → ∀ it ∈ updateQuantity items productId q,
      it.product.id = productId → it.quantity = 1) := by
  refine ⟨by simp [updateQuantity],
    fun i hi hi2 => ⟨fun hid => ?_, fun hid => ?_⟩,
    fun hq it hit hid => ?_⟩
  · simp only [updateQuantity, List.get_map]
    rw [if_pos hid]
    exact ⟨rfl, rfl⟩
  · simp only [updateQuantity, List.get_map]
    rw [if_neg hid]
  · simp only [updateQuantity] at hit
    obtain ⟨a, ha, rfl⟩ := List.mem_map.mp hit
    by_cases haid : a.product.id = productId
    · rw [if_pos haid]
      show max 1 q = 1
      exact max_eq_left hq.le
    · rw [if_neg haid] at hid ⊢
      exact absurd hid haid

theorem c9_witness :
    (updateQuantity [⟨⟨3, "Cable"⟩, 5⟩] 3 0).length = 1 ∧
    (∀ it ∈ updateQuantity [⟨⟨3, "Cable"⟩, 5⟩] 3 0,
      it.product.id = 3 → it.quantity = 1) :=
  ⟨(c9_quantity_floor [⟨⟨3, "Cable"⟩, 5⟩] 3 0 (by decide)).1,
    (c9_quantity_floor [⟨⟨3, "Cable"⟩, 5⟩] 3 0 (by decide)).2.2 (by decide)⟩

/-- C7: an instruction resolving to several candidate products, none of them
an exact name match, surfaces the candidate list for disambiguation (in add
and in remove intent alike) and leaves the cart items untouched. -/
theorem c7_ambiguous_leaves_cart (instruction : String) (fromVoice : Bool)
    (catalog : List Product) (st : UIState) :
    (∀ r : Resolution,
      jsTrim instruction ≠ "" → catalog ≠ [] →
      isAddCommand instruction = true →
      stripActionAdd instruction ≠ "" →
      resolveAttempts (searchIndexOf catalog)
          (computeAttempts (stripActionAdd instruction)) = some r →
      r.exactMatch = none → 1 < r.matchList.length →
      (interpretCommand instruction fromVoice catalog st).items = st.items ∧
      (interpretCommand instruction fromVoice catalog st).suggestions =
        r.matchList ∧
      (interpretCommand instruction fromVoice catalog st).suggestionMode =
        some .add) ∧
    (∀ ms : List Product,
      jsTrim instruction ≠ "" → catalog ≠ [] →
      isAddCommand instruction = false →
      isRemoveCommand instruction = true →
      stripActionRemove instruction ≠ "" →
      findProducts (searchIndexOf catalog) (stripActionRemove instruction) =
        (none, ms) →
      1 < ms.length →
      (interpretCommand instruction fromVoice catalog st).items = st.items ∧
      (interpretCommand instruction fromVoice catalog st).suggestions = ms ∧
      (interpretCommand instruction fromVoice catalog st).suggestionMode =
        some .remove) := by
  constructor
  · intro r h1 h2 h3 h4 h5 h6 h7
    have hlen : ¬ r.matchList.length = 1 := by omega
    have hcmd : interpretCommand instruction fromVoice catalog st =
        addIntent instruction fromVoice (searchIndexOf catalog)
          { st with suggestions := [], suggestionMode := none } := by
      unfold interpretCommand
      rw [if_neg h1, if_neg h2, if_pos h3]
    have hadd : addIntent instruction fromVoice (searchIndexOf catalog)
        { st with suggestions := [], suggestionMode := none } =
        { st with
          suggestions := r.matchList,
          suggestionMode := some .add,
          pendingQuantity := r.quantity,
          feedback := some (.ambiguousAdd r.matchList.length r.label) } := by
      simp [addIntent, h4, h5, h6, hlen]
    rw [hcmd, hadd]
    exact ⟨rfl, rfl, rfl⟩
  · intro ms h1 h2 h3 h4 h5 h6 h7
    have hne : ms ≠ [] := by
      intro h
      subst h
      simp at h7
    have hlen : ¬ ms.length = 1 := by omega
    have hcmd : interpretCommand instruction fromVoice catalog st =
        removeIntent instruction (searchIndexOf catalog)
          { st with suggestions := [], suggestionMode := none } := by
      unfold interpretCommand
      rw [if_neg h1, if_neg h2, if_neg (by simp [h3]), if_pos h4]
    have hrem : removeIntent instruction (searchIndexOf catalog)
        { st with suggestions := [], suggestionMode := none } =
        { st with
          suggestions := ms,
          suggestionMode := some .remove,
          feedback := some (.ambiguousRemove ms.length
            (stripActionRemove instruction)) } := by
      simp [removeIntent, h5, h6, hne, hlen]
    rw [hcmd, hrem]
    exact ⟨rfl, rfl, rfl⟩

/-- C8: in the add intent, when the text after stripping the action keyword
ends in digits and dropping them leaves nothing, the single search attempt
uses the original remaining text (digits included) with the parsed number as
the quantity, and the resolved search is `findProducts` on that original
text. -/
theorem c8_trailing_number_uses_original_text (instruction : String)
    (catalog : List Product) (digits : String) :
    isAddCommand instruction = true →
    stripActionAdd instruction ≠ "" →
    trailingDigits (stripActionAdd instruction) = some (digits, "") →
    computeAttempts (stripActionAdd instruction) =
      [⟨stripActionAdd instruction, max 1 (digitsToNat digits.data : Int)⟩] ∧
    ((findProducts (searchIndexOf catalog)
        (stripActionAdd instruction)).2 ≠ [] →
      resolveAttempts (searchIndexOf catalog)
          (computeAttempts (stripActionAdd instruction)) =
        some ⟨(findProducts (searchIndexOf catalog)
            (stripActionAdd instruction)).1,
          (findProducts (searchIndexOf catalog)
            (stripActionAdd instruction)).2,
          max 1 (digitsToNat digits.data : Int),
          stripActionAdd instruction⟩) := by
  intro h1 h2 h3
  have hca : computeAttempts (stripActionAdd instruction) =
      [⟨stripActionAdd instruction, max 1 (digitsToNat digits.data : Int)⟩] := by
    simp [computeAttempts, h3]
  refine ⟨hca, fun hnem => ?_⟩
  rw [hca]
  simp [resolveAttempts, hnem]

theorem c7_witness :
    (interpretCommand "agregar laptop" false [laptopPro, laptopAir]
        emptyUI).items = emptyUI.items ∧
    (interpretCommand "agregar laptop" false [laptopPro, laptopAir]
        emptyUI).suggestions = [laptopPro, laptopAir] ∧
    (interpretCommand "quitar laptop" false [laptopPro, laptopAir]
        emptyUI).items = emptyUI.items ∧
    (interpretCommand "quitar laptop" false [laptopPro, laptopAir]
        emptyUI).suggestionMode = some .remove := by
  have hadd := (c7_ambiguous_leaves_cart "agregar laptop" false
      [laptopPro, laptopAir] emptyUI).1
      ⟨none, [laptopPro, laptopAir], 1, "laptop"⟩
      (by decide) (by decide) (by decide) (by decide) (by decide) rfl
      (by decide)
  have hrem := (c7_ambiguous_leaves_cart "quitar laptop" false
      [laptopPro, laptopAir] emptyUI).2 [laptopPro, laptopAir]
      (by decide) (by decide) (by decide) (by decide) (by decide)
      (by decide) (by decide)
  exact ⟨hadd.1, hadd.2.1, hrem.1, hrem.2.2⟩

theorem c8_witness :
    computeAttempts (stripActionAdd "agregar 123") = [⟨"123", (123 : Int)⟩] ∧
    resolveAttempts (searchIndexOf [cable123])
        (computeAttempts (stripActionAdd "agregar 123")) =
      some ⟨none, [cable123], 123, "123"⟩ := by
  have h := c8_trailing_number_uses_original_text "agregar 123" [cable123]
      "123" (by decide) (by decide) (by decide)
  exact ⟨h.1.trans (by decide), (h.2 (by decide)).trans (by decide)⟩
